import Mathlib

/-
Verification of the orchestration core of the `buddy` agent framework:
the workflow state-machine engine (pkg/langgraph/engine.go), the task
executor (pkg/executor/task_executor.go) and the in-process event bus
(pkg/eventbus/eventbus.go), over a shallow embedding of the Go source.

Modelling conventions:
- Go maps are embedded as association lists (`List (κ × α)`) with
  first-match lookup and in-place overwrite on insert; `lookupA`/`insertA`
  below give exactly the read/assign semantics used by the source.
- `time.Time` values are embedded as `Nat` tick counters supplied by the
  caller of each operation (the code only ever writes `time.Now()` into
  `CreatedAt`/`UpdatedAt`; no decision is ever taken on a timestamp).
- `interface{}` payload values are embedded as `String`; no component of
  the core ever inspects a payload value, it only moves it around.
- Functions returning `error` are embedded as `Except String _` carrying
  the formatted message produced by the corresponding `fmt.Errorf` call.
-/

set_option autoImplicit false

namespace Buddy

/-! ### Go map operations as association lists -/

/-- Go map read `m[k]` with its `, ok` form: first matching key wins. -/
def lookupA {κ : Type} {α : Type} [DecidableEq κ] (k : κ) : List (κ × α) → Option α
  | [] => none
  | (k', v) :: rest => if k = k' then some v else lookupA k rest

/-- Go map assignment `m[k] = v`: overwrite the existing entry or append. -/
def insertA {κ : Type} {α : Type} [DecidableEq κ] (k : κ) (v : α) : List (κ × α) → List (κ × α)
  | [] => [(k, v)]
  | (k', v') :: rest => if k = k' then (k, v) :: rest else (k', v') :: insertA k v rest

theorem lookupA_insertA {κ α : Type} [DecidableEq κ] (k k' : κ) (v : α) (l : List (κ × α)) :
    lookupA k (insertA k' v l) = if k = k' then some v else lookupA k l := by
  induction l with
  | nil => by_cases h : k = k' <;> simp [lookupA, insertA, h]
  | cons p rest ih =>
    obtain ⟨k₀, v₀⟩ := p
    by_cases h1 : k' = k₀
    · subst h1
      by_cases h2 : k = k' <;> simp [insertA, lookupA, h2]
    · by_cases h2 : k = k₀
      · subst h2
        have h3 : ¬ k = k' := fun h => h1 h.symm
        simp [insertA, lookupA, h1, h3]
      · simp [insertA, lookupA, h1, h2, ih]

theorem lookupA_insertA_self {κ α : Type} [DecidableEq κ] (k : κ) (v : α) (l : List (κ × α)) :
    lookupA k (insertA k v l) = some v := by
  simp [lookupA_insertA]

theorem lookupA_insertA_ne {κ α : Type} [DecidableEq κ] {k k' : κ} (v : α) (l : List (κ × α))
    (h : k ≠ k') : lookupA k (insertA k' v l) = lookupA k l := by
  simp [lookupA_insertA, h]

/-- Membership test mirroring the Go loop `for _, s := range list { if s == x ... }`. -/
def memberStr (x : String) : List String → Bool
  | [] => false
  | s :: rest => if s = x then true else memberStr x rest

theorem memberStr_iff (x : String) (l : List String) : memberStr x l = true ↔ x ∈ l := by
  induction l with
  | nil => simp [memberStr]
  | cons s rest ih =>
    by_cases h : s = x
    · subst h; simp [memberStr]
    · simp [memberStr, h, ih]
      intro hx
      exact absurd hx.symm h

/-! ### Workflow engine data model (pkg/langgraph/engine.go)

`WorkflowState` embeds the Go struct of the same name.  The `Transitions`
field `map[string]map[string]string` (from -> event -> to) becomes a nested
association list.  Payload values in the `Data` bag are never inspected
by the engine and are embedded as `String`. -/

structure WorkflowState where
  id : String
  currentState : String
  states : List String
  transitions : List (String × List (String × String))
  data : List (String × String)
  createdAt : Nat
  updatedAt : Nat
deriving DecidableEq

/-- StateTransition record delivered to subscribers (pkg/interfaces). -/
structure StateTransition where
  fromState : String
  toState : String
  event : String
  taskID : String
  timestamp : Nat
  data : List (String × String)
deriving DecidableEq

/-- Engine state: the in-memory `workflows` map plus the key/value memory
store the engine writes snapshots into (`workflow:<id>` keys) and the
program-order list of transition records handed to `notifySubscribers`.
The memory store never influences control flow in the source (store errors
are only logged), so it is carried as plain data. -/
structure Engine where
  workflows : List (String × WorkflowState)
  memory : List (String × WorkflowState)
  emittedTransitions : List StateTransition
deriving DecidableEq

def engine0 : Engine := { workflows := [], memory := [], emittedTransitions := [] }

/-- Helper `stateExists` of the Go engine: linear scan of the declared set. -/
def stateExists (w : WorkflowState) (s : String) : Bool :=
  memberStr s w.states

/-- Transition-table initialization loop of `CreateWorkflow`:
`for _, state := range states { workflow.Transitions[state] = map... }`. -/
def initTransitions (states : List String) : List (String × List (String × String)) :=
  states.foldl (fun m s => insertA s [] m) []

/-- CreateWorkflow (engine.go lines 43-80): rejects an empty state list,
otherwise builds a fresh workflow whose current state is `states[0]`,
registers it under `workflowID` (silently replacing any existing entry)
and stores a snapshot under `workflow:<id>`. -/
def CreateWorkflow (e : Engine) (workflowID : String) (states : List String) (now : Nat) :
    Except String Engine :=
  match states with
  | [] => .error "workflow must have at least one state"
  | s0 :: _ =>
    let workflow : WorkflowState :=
      { id := workflowID
        currentState := s0
        states := states
        transitions := initTransitions states
        data := []
        createdAt := now
        updatedAt := now }
    .ok { e with
      workflows := insertA workflowID workflow e.workflows
      memory := insertA ("workflow:" ++ workflowID) workflow e.memory }

/-- AddTransition (engine.go lines 83-117): fails when the workflow is
unknown or either endpoint is not a declared state; otherwise performs
`workflow.Transitions[from][event] = to` and refreshes the snapshot.
`CreateWorkflow` builds a row for every declared state, so on every
engine reachable from `engine0` the `.getD []` default row is never the
row actually updated for a declared `fr`. -/
def AddTransition (e : Engine) (workflowID fr tgt event : String) (now : Nat) :
    Except String Engine :=
  match lookupA workflowID e.workflows with
  | none => .error ("workflow not found: " ++ workflowID)
  | some workflow =>
    if !stateExists workflow fr then
      .error ("source state does not exist: " ++ fr)
    else if !stateExists workflow tgt then
      .error ("target state does not exist: " ++ tgt)
    else
      let row := (lookupA fr workflow.transitions).getD []
      let workflow' := { workflow with
        transitions := insertA fr (insertA event tgt row) workflow.transitions
        updatedAt := now }
      .ok { e with
        workflows := insertA workflowID workflow' e.workflows
        memory := insertA ("workflow:" ++ workflowID) workflow' e.memory }

/-- Data-bag merge of `TriggerEvent`: `for key, value := range data`. -/
def mergeData (bag : List (String × String)) (data : List (String × String)) :
    List (String × String) :=
  data.foldl (fun b kv => insertA kv.1 kv.2 b) bag

/-- TriggerEvent (engine.go lines 120-174): fails when the workflow is
unknown or `Transitions[currentState][event]` has no entry (reading a
missing row behaves like Go's nil-map read, hence the `.getD []`);
otherwise moves to the mapped target, merges the payload into the data
bag, refreshes the snapshot and emits a StateTransition record. -/
def TriggerEvent (e : Engine) (workflowID event : String) (data : List (String × String))
    (now : Nat) : Except String Engine :=
  match lookupA workflowID e.workflows with
  | none => .error ("workflow not found: " ++ workflowID)
  | some workflow =>
    match lookupA event ((lookupA workflow.currentState workflow.transitions).getD []) with
    | none =>
      .error ("no transition defined for state '" ++ workflow.currentState ++
              "' with event '" ++ event ++ "'")
    | some nextState =>
      let tr : StateTransition :=
        { fromState := workflow.currentState
          toState := nextState
          event := event
          taskID := workflowID
          timestamp := now
          data := data }
      let workflow' := { workflow with
        currentState := nextState
        updatedAt := now
        data := mergeData workflow.data data }
      .ok { e with
        workflows := insertA workflowID workflow' e.workflows
        memory := insertA ("workflow:" ++ workflowID) workflow' e.memory
        emittedTransitions := e.emittedTransitions ++ [tr] }

/-- GetCurrentState (engine.go lines 177-187). -/
def GetCurrentState (e : Engine) (workflowID : String) : Except String String :=
  match lookupA workflowID e.workflows with
  | none => .error ("workflow not found: " ++ workflowID)
  | some workflow => .ok workflow.currentState

/-! ### Operation sequences over the engine -/

inductive EngOp where
  | create (id : String) (states : List String)
  | addTrans (id fr tgt event : String)
  | trigger (id event : String) (data : List (String × String))
deriving DecidableEq

/-- Apply one engine operation; a failing call leaves the engine unchanged
(every error path of the source returns before mutating anything). -/
def stepE (e : Engine) (op : EngOp) (now : Nat) : Engine :=
  match op with
  | .create id states =>
    match CreateWorkflow e id states now with
    | .ok e' => e'
    | .error _ => e
  | .addTrans id fr tgt event =>
    match AddTransition e id fr tgt event now with
    | .ok e' => e'
    | .error _ => e
  | .trigger id event data =>
    match TriggerEvent e id event data now with
    | .ok e' => e'
    | .error _ => e

/-- Run a timed sequence of engine operations from a starting engine. -/
def runOps (e : Engine) : List (EngOp × Nat) → Engine
  | [] => e
  | (op, now) :: rest => runOps (stepE e op now) rest

/-! ### Engine invariants -/

/-- Every target recorded in the transition table is a declared state. -/
def transTargetsOK (w : WorkflowState) : Prop :=
  ∀ fr row, lookupA fr w.transitions = some row →
    ∀ ev t, lookupA ev row = some t → t ∈ w.states

/-- Per-workflow invariant: the current state is declared and the table
only maps into declared states. -/
def WfInv (w : WorkflowState) : Prop :=
  w.currentState ∈ w.states ∧ transTargetsOK w

/-- Engine invariant: every registered workflow satisfies `WfInv`. -/
def EngInv (e : Engine) : Prop :=
  ∀ id w, lookupA id e.workflows = some w → WfInv w

theorem initTransitions_rows (states : List String) :
    ∀ fr row, lookupA fr (initTransitions states) = some row → row = [] := by
  suffices h : ∀ (acc : List (String × List (String × String))),
      (∀ fr row, lookupA fr acc = some row → row = []) →
      ∀ fr row, lookupA fr (states.foldl (fun m s => insertA s [] m) acc) = some row →
        row = [] by
    intro fr row hr
    exact h [] (by intro fr' row' hx; simp [lookupA] at hx) fr row hr
  induction states with
  | nil => intro acc hacc fr row h; exact hacc fr row h
  | cons s rest ih =>
    intro acc hacc fr row h
    simp only [List.foldl] at h
    refine ih (insertA s [] acc) ?_ fr row h
    intro fr' row' hx
    rw [lookupA_insertA] at hx
    by_cases he : fr' = s
    · rw [if_pos he] at hx
      exact (Option.some.inj hx).symm
    · rw [if_neg he] at hx
      exact hacc fr' row' hx

theorem engInv_insert (e : Engine) (id : String) (w : WorkflowState)
    (mem : List (String × WorkflowState)) (em : List StateTransition)
    (hInv : EngInv e) (hw : WfInv w) :
    EngInv { workflows := insertA id w e.workflows, memory := mem,
             emittedTransitions := em } := by
  intro id' w' hw'
  have hw'' : lookupA id' (insertA id w e.workflows) = some w' := hw'
  rw [lookupA_insertA] at hw''
  by_cases hid : id' = id
  · rw [if_pos hid] at hw''
    exact (Option.some.inj hw'') ▸ hw
  · rw [if_neg hid] at hw''
    exact hInv id' w' hw''

theorem wfInv_fresh (id : String) (s0 : String) (rest : List String) (now : Nat) :
    WfInv { id := id, currentState := s0, states := s0 :: rest,
            transitions := initTransitions (s0 :: rest), data := [],
            createdAt := now, updatedAt := now } := by
  constructor
  · exact List.mem_cons_self s0 rest
  · intro fr row hr ev t ht
    have hrow : row = [] := initTransitions_rows (s0 :: rest) fr row hr
    subst hrow
    simp [lookupA] at ht

theorem wfInv_addRow (w : WorkflowState) (fr tgt event : String) (now : Nat)
    (hw : WfInv w) (htgt : tgt ∈ w.states) :
    WfInv { w with
      transitions := insertA fr (insertA event tgt ((lookupA fr w.transitions).getD []))
                       w.transitions
      updatedAt := now } := by
  obtain ⟨hcur, htrans⟩ := hw
  refine ⟨hcur, ?_⟩
  intro fr' row hr ev t ht
  have hr' : lookupA fr'
      (insertA fr (insertA event tgt ((lookupA fr w.transitions).getD [])) w.transitions)
      = some row := hr
  rw [lookupA_insertA] at hr'
  by_cases hfr : fr' = fr
  · rw [if_pos hfr] at hr'
    have hrow := (Option.some.inj hr').symm
    subst hrow
    rw [lookupA_insertA] at ht
    by_cases hev : ev = event
    · rw [if_pos hev] at ht
      exact (Option.some.inj ht) ▸ htgt
    · rw [if_neg hev] at ht
      cases hx : lookupA fr w.transitions with
      | none => rw [hx] at ht; simp [lookupA] at ht
      | some r => rw [hx] at ht; exact htrans fr r hx ev t ht
  · rw [if_neg hfr] at hr'
    exact htrans fr' row hr' ev t ht

theorem wfInv_moved (w : WorkflowState) (ns : String) (data : List (String × String))
    (now : Nat) (hw : WfInv w)
    (hns : ∃ event, lookupA event ((lookupA w.currentState w.transitions).getD [])
             = some ns) :
    WfInv { w with
      currentState := ns
      updatedAt := now
      data := mergeData w.data data } := by
  obtain ⟨hcur, htrans⟩ := hw
  obtain ⟨event, hns⟩ := hns
  constructor
  · cases hx : lookupA w.currentState w.transitions with
    | none => rw [hx] at hns; simp [lookupA] at hns
    | some r =>
      rw [hx] at hns
      exact htrans w.currentState r hx event ns hns
  · intro fr row hr ev t ht
    exact htrans fr row hr ev t ht

theorem engInv_step (e : Engine) (op : EngOp) (now : Nat) (hInv : EngInv e) :
    EngInv (stepE e op now) := by
  cases op with
  | create id states =>
    cases states with
    | nil => simpa [stepE, CreateWorkflow] using hInv
    | cons s0 rest =>
      simp only [stepE, CreateWorkflow]
      exact engInv_insert e id _ _ _ hInv (wfInv_fresh id s0 rest now)
  | addTrans id fr tgt event =>
    simp only [stepE]
    cases hw : lookupA id e.workflows with
    | none => simp [AddTransition, hw]; exact hInv
    | some w =>
      cases hfr : stateExists w fr with
      | false => simp [AddTransition, hw, hfr]; exact hInv
      | true =>
        cases htg : stateExists w tgt with
        | false => simp [AddTransition, hw, hfr, htg]; exact hInv
        | true =>
          simp only [AddTransition, hw, hfr, htg, Bool.not_true, Bool.false_eq_true,
            if_false]
          exact engInv_insert e id _ _ _ hInv
            (wfInv_addRow w fr tgt event now (hInv id w hw)
              ((memberStr_iff tgt w.states).mp htg))
  | trigger id event data =>
    simp only [stepE]
    cases hw : lookupA id e.workflows with
    | none => simp [TriggerEvent, hw]; exact hInv
    | some w =>
      cases hns : lookupA event ((lookupA w.currentState w.transitions).getD []) with
      | none => simp [TriggerEvent, hw, hns]; exact hInv
      | some ns =>
        simp only [TriggerEvent, hw, hns]
        exact engInv_insert e id _ _ _ hInv
          (wfInv_moved w ns data now (hInv id w hw) ⟨event, hns⟩)

theorem engInv_engine0 : EngInv engine0 := by
  intro id w hw
  simp [engine0, lookupA] at hw

theorem engInv_runOps (ops : List (EngOp × Nat)) (e : Engine) (hInv : EngInv e) :
    EngInv (runOps e ops) := by
  induction ops generalizing e with
  | nil => exact hInv
  | cons p rest ih =>
    obtain ⟨op, now⟩ := p
    exact ih (stepE e op now) (engInv_step e op now hInv)

/-! ### Claim C1 -/

/-- C1: for every workflow id and event, `TriggerEvent` succeeds if and only
if the workflow exists and its transition table has an entry for
`(currentState, event)`; on success the current state becomes the mapped
target, and on failure the engine (in particular the current state) is
unchanged. -/
theorem triggerEvent_iff_transition
    (e : Engine) (workflowID event : String) (data : List (String × String)) (now : Nat) :
    ((∃ e', TriggerEvent e workflowID event data now = .ok e') ↔
      (∃ w ns, lookupA workflowID e.workflows = some w ∧
        lookupA event ((lookupA w.currentState w.transitions).getD []) = some ns))
    ∧ (∀ w ns, lookupA workflowID e.workflows = some w →
        lookupA event ((lookupA w.currentState w.transitions).getD []) = some ns →
        (lookupA workflowID (stepE e (.trigger workflowID event data) now).workflows).map
          WorkflowState.currentState = some ns)
    ∧ (∀ msg, TriggerEvent e workflowID event data now = .error msg →
        stepE e (.trigger workflowID event data) now = e) := by
  refine ⟨⟨?_, ?_⟩, ?_, ?_⟩
  · rintro ⟨e', he⟩
    cases hw : lookupA workflowID e.workflows with
    | none => simp [TriggerEvent, hw] at he
    | some w =>
      cases hns : lookupA event ((lookupA w.currentState w.transitions).getD []) with
      | none => simp [TriggerEvent, hw, hns] at he
      | some ns => exact ⟨w, ns, rfl, hns⟩
  · rintro ⟨w, ns, hw, hns⟩
    refine ⟨{ e with
      workflows := insertA workflowID
        { w with
          currentState := ns
          updatedAt := now
          data := mergeData w.data data } e.workflows
      memory := insertA ("workflow:" ++ workflowID)
        { w with
          currentState := ns
          updatedAt := now
          data := mergeData w.data data } e.memory
      emittedTransitions := e.emittedTransitions ++
        [{ fromState := w.currentState
           toState := ns
           event := event
           taskID := workflowID
           timestamp := now
           data := data }] }, ?_⟩
    simp [TriggerEvent, hw, hns]
  · intro w ns hw hns
    simp only [stepE, TriggerEvent, hw, hns]
    have h1 : lookupA workflowID
        (insertA workflowID
          { w with
            currentState := ns
            updatedAt := now
            data := mergeData w.data data } e.workflows) = some
          { w with
            currentState := ns
            updatedAt := now
            data := mergeData w.data data } :=
      lookupA_insertA_self workflowID _ e.workflows
    rw [h1]
    rfl
  · intro msg hmsg
    simp [stepE, hmsg]

/-- Engine holding workflow `wf` with states `[a, b]` and the single
transition `(a, go) -> b`; used to instantiate the engine theorems. -/
def wfEngine : Engine :=
  stepE (stepE engine0 (.create "wf" ["a", "b"]) 0) (.addTrans "wf" "a" "b" "go") 1

/-- Workflow record registered in `wfEngine`. -/
def wfW : WorkflowState :=
  { id := "wf"
    currentState := "a"
    states := ["a", "b"]
    transitions := [("a", [("go", "b")]), ("b", [])]
    data := []
    createdAt := 0
    updatedAt := 1 }

theorem triggerEvent_iff_transition_witness :
    (lookupA "wf" (stepE wfEngine (.trigger "wf" "go" []) 2).workflows).map
      WorkflowState.currentState = some "b" :=
  (triggerEvent_iff_transition wfEngine "wf" "go" [] 2).2.1 wfW "b" rfl rfl

/-! ### Claim C4 -/

/-- C4: over every sequence of engine operations starting from the empty
engine, a registered workflow's current state is a member of its declared
state set; `CreateWorkflow` with a non-empty list sets the starting current
state to the first element; `AddTransition` with an undeclared endpoint
fails and leaves the engine (hence the transition table) unchanged. -/
theorem workflow_state_always_declared
    (ops : List (EngOp × Nat)) (id : String) (w : WorkflowState)
    (hw : lookupA id (runOps engine0 ops).workflows = some w)
    (e : Engine) (id₂ fr tgt event : String) (now : Nat) (w₂ : WorkflowState)
    (hw₂ : lookupA id₂ e.workflows = some w₂)
    (hbad : fr ∉ w₂.states ∨ tgt ∉ w₂.states)
    (e₃ : Engine) (id₃ s : String) (ss : List String) (now₃ : Nat) :
    w.currentState ∈ w.states
    ∧ (∃ msg, AddTransition e id₂ fr tgt event now = .error msg)
    ∧ stepE e (.addTrans id₂ fr tgt event) now = e
    ∧ (∃ e', CreateWorkflow e₃ id₃ (s :: ss) now₃ = .ok e'
        ∧ (lookupA id₃ e'.workflows).map WorkflowState.currentState = some s) := by
  have hrej : ∃ msg, AddTransition e id₂ fr tgt event now = .error msg := by
    cases hfr : stateExists w₂ fr with
    | false =>
      exact ⟨"source state does not exist: " ++ fr, by simp [AddTransition, hw₂, hfr]⟩
    | true =>
      have hfr' : fr ∈ w₂.states := (memberStr_iff fr w₂.states).mp hfr
      have htg : stateExists w₂ tgt = false := by
        cases hx : stateExists w₂ tgt with
        | false => rfl
        | true =>
          have := (memberStr_iff tgt w₂.states).mp hx
          rcases hbad with hb | hb
          · exact absurd hfr' hb
          · exact absurd this hb
      exact ⟨"target state does not exist: " ++ tgt,
        by simp [AddTransition, hw₂, hfr, htg]⟩
  refine ⟨?_, hrej, ?_, ?_⟩
  · exact (engInv_runOps ops engine0 engInv_engine0 id w hw).1
  · obtain ⟨msg, hmsg⟩ := hrej
    simp [stepE, hmsg]
  · refine ⟨_, rfl, ?_⟩
    have h1 := lookupA_insertA_self (α := WorkflowState) id₃
      { id := id₃
        currentState := s
        states := s :: ss
        transitions := initTransitions (s :: ss)
        data := []
        createdAt := now₃
        updatedAt := now₃ } e₃.workflows
    have h2 : Option.map WorkflowState.currentState
        (lookupA id₃ (insertA id₃
          { id := id₃
            currentState := s
            states := s :: ss
            transitions := initTransitions (s :: ss)
            data := []
            createdAt := now₃
            updatedAt := now₃ } e₃.workflows)) = some s := by
      rw [h1]
      rfl
    exact h2

theorem workflow_state_always_declared_witness :
    wfW.currentState ∈ wfW.states :=
  (workflow_state_always_declared
    [(.create "wf" ["a", "b"], 0), (.addTrans "wf" "a" "b" "go", 1)] "wf" wfW rfl
    wfEngine "wf" "zap" "b" "go" 5 wfW rfl (Or.inl (by decide))
    engine0 "w2" "p" ["q"] 7).1

/-! ### Claim C9 -/

/-- C9: calling `CreateWorkflow` on an identifier that already has a
registered workflow succeeds and silently replaces it: the current state is
reset to the first supplied state, the data bag is reset to empty and the
transition table is reset to the freshly built (all-empty-rows)
table, discarding the previous one. -/
theorem createWorkflow_replaces_existing
    (e : Engine) (id s : String) (ss : List String) (now : Nat)
    (wOld : WorkflowState) (_hOld : lookupA id e.workflows = some wOld) :
    ∃ e' w', CreateWorkflow e id (s :: ss) now = .ok e'
      ∧ lookupA id e'.workflows = some w'
      ∧ w'.currentState = s
      ∧ w'.data = []
      ∧ w'.transitions = initTransitions (s :: ss) := by
  exact ⟨_, _, rfl,
    lookupA_insertA_self (α := WorkflowState) id
      { id := id
        currentState := s
        states := s :: ss
        transitions := initTransitions (s :: ss)
        data := []
        createdAt := now
        updatedAt := now } e.workflows,
    rfl, rfl, rfl⟩

theorem createWorkflow_replaces_existing_witness :
    ∃ e' w', CreateWorkflow wfEngine "wf" ["x", "y"] 9 = .ok e'
      ∧ lookupA "wf" e'.workflows = some w'
      ∧ w'.currentState = "x"
      ∧ w'.data = []
      ∧ w'.transitions = initTransitions ["x", "y"] :=
  createWorkflow_replaces_existing wfEngine "wf" "x" ["y"] 9 wfW rfl

/-! ### Task executor data model (pkg/executor/task_executor.go)

A handler is embedded as a function from the dispatched task record to the
pair (error returned by `Handle`, task record as mutated by the handler);
the handler registry `map[string]TaskHandler` is embedded as a lookup
function supplied to each operation (functions are registered before
dispatch and registration itself needs no verification here).  The
in-flight registry `map[string]context.CancelFunc` is embedded as the list
of registered task ids plus a list recording each invocation of a stored
cancellation handle. -/

inductive TaskStatus where
  | pending
  | running
  | completed
  | failed
  | cancelled
deriving DecidableEq

/-- Task record (pkg/interfaces).  `error` is a Go string, empty when
unset; `result` is never inspected. -/
structure Task where
  id : String
  type : String
  description : String
  parameters : List (String × String)
  status : TaskStatus
  dependencies : List String
  createdAt : Nat
  updatedAt : Nat
  result : Option String
  error : String
deriving DecidableEq

/-- A value held in the key/value store: either a task snapshot or some
value of another type (the executor type-asserts `*interfaces.Task` after
retrieval). -/
inductive MemVal where
  | task (t : Task)
  | other
deriving DecidableEq

/-- Observable executor effect, recorded in program order: a key/value
store write of a task snapshot, an event-bus publish, or the start/return
of the asynchronous handler. -/
inductive ExecEvent where
  | storeTask (key : String) (t : Task)
  | publish (topic : String) (taskID : String)
  | handlerStart (taskID : String)
  | handlerReturn (taskID : String)
deriving DecidableEq

structure ExecState where
  memory : List (String × MemVal)
  runningTasks : List String
  cancelledHandles : List String
  trace : List ExecEvent
deriving DecidableEq

def execState0 : ExecState :=
  { memory := [], runningTasks := [], cancelledHandles := [], trace := [] }

def Handler : Type := Task → Option String × Task

/-- Status/update-time mutation performed by ExecuteTask before the
`running` snapshot is stored (task_executor.go lines 59-61). -/
def markRunning (t : Task) (now : Nat) : Task :=
  { t with
    status := .running
    updatedAt := now }

/-- Result of the synchronous part of ExecuteTask: the returned error (if
any), the executor state, and the task record as left by the call. -/
structure ExecResult where
  res : Except String Unit
  st : ExecState
  task : Task

/-- Synchronous part of ExecuteTask (task_executor.go lines 43-78 plus the
`go` statement): handler lookup, mark running, persist the running
snapshot, publish `task.started`, and record the cancellation handle in
the in-flight registry.  With no registered handler it fails before any
mutation. -/
def executeTaskSync (lookupH : String → Option Handler) (st : ExecState) (t : Task)
    (now : Nat) : ExecResult :=
  match lookupH t.type with
  | none =>
    { res := .error ("no handler registered for task type: " ++ t.type)
      st := st
      task := t }
  | some _ =>
    let t' := markRunning t now
    { res := .ok ()
      st := { st with
        memory := insertA ("task:" ++ t.id) (.task t') st.memory
        trace := st.trace ++
          [.storeTask ("task:" ++ t.id) t', .publish "task.started" t.id]
        runningTasks := t.id :: st.runningTasks }
      task := t' }

/-- Status/error mutation performed once the handler has returned
(task_executor.go lines 91-116): `failed` with the error message captured
verbatim, or `completed`. -/
def finalizeTask (t₂ : Task) (errOpt : Option String) (now : Nat) : Task :=
  match errOpt with
  | some m =>
    { t₂ with
      status := .failed
      error := m
      updatedAt := now }
  | none =>
    { t₂ with
      status := .completed
      updatedAt := now }

def completionTopic (errOpt : Option String) : String :=
  match errOpt with
  | some _ => "task.failed"
  | none => "task.completed"

/-- The asynchronous completion goroutine of ExecuteTask (lines 81-122):
run the handler, set the final status, publish the completion event,
persist the final snapshot, and (deferred) drop the task from the
in-flight registry. -/
def completeTask (h : Handler) (st : ExecState) (t' : Task) (now : Nat) :
    ExecState × Task :=
  let r := h t'
  let tf := finalizeTask r.2 r.1 now
  ({ st with
      memory := insertA ("task:" ++ tf.id) (.task tf) st.memory
      trace := st.trace ++
        [.handlerStart t'.id, .handlerReturn t'.id,
         .publish (completionTopic r.1) tf.id, .storeTask ("task:" ++ tf.id) tf]
      runningTasks := st.runningTasks.filter (fun x => decide (x ≠ tf.id)) },
   tf)

/-- One task's dispatch followed by its own asynchronous completion, with
no interleaved operation from another caller: within a single task the
goroutine body is sequenced strictly after the bookkeeping of the
synchronous part. -/
def execAndComplete (lookupH : String → Option Handler) (st : ExecState) (t : Task)
    (now₁ now₂ : Nat) : ExecResult :=
  match lookupH t.type with
  | none => executeTaskSync lookupH st t now₁
  | some h =>
    let r := executeTaskSync lookupH st t now₁
    let p := completeTask h r.st r.task now₂
    { res := r.res
      st := p.1
      task := p.2 }

/-- CancelTask (task_executor.go lines 143-181): fail if the task is not
in flight; otherwise invoke the recorded cancellation handle, then
retrieve the snapshot — failing after the handle was already invoked when
the snapshot is missing or not a task — and finally persist `cancelled`
and publish `task.cancelled`.  The retrieval error message includes the
memory store's own "key not found" text. -/
def CancelTask (st : ExecState) (taskID : String) (now : Nat) :
    Except String Unit × ExecState :=
  if taskID ∈ st.runningTasks then
    let st₁ := { st with cancelledHandles := st.cancelledHandles ++ [taskID] }
    match lookupA ("task:" ++ taskID) st₁.memory with
    | none =>
      (.error ("failed to retrieve task: key not found: task:" ++ taskID), st₁)
    | some MemVal.other =>
      (.error "invalid task data in memory", st₁)
    | some (MemVal.task t) =>
      let t' := { t with
        status := .cancelled
        updatedAt := now }
      (.ok (),
       { st₁ with
         memory := insertA ("task:" ++ taskID) (.task t') st₁.memory
         trace := st₁.trace ++
           [.storeTask ("task:" ++ taskID) t', .publish "task.cancelled" taskID] })
  else
    (.error ("task not running: " ++ taskID), st)

/-! ### Claim C3 -/

/-- C3: dispatching a task whose type has no registered handler fails
synchronously with the "no handler" error and performs no state change:
the executor state is untouched (so no snapshot is persisted under
`task:<id>` and nothing is published) and the task record, in particular
its status field, is not modified. -/
theorem executeTask_no_handler
    (lookupH : String → Option Handler) (st : ExecState) (t : Task) (now : Nat)
    (hl : lookupH t.type = none) :
    (executeTaskSync lookupH st t now).res
        = .error ("no handler registered for task type: " ++ t.type)
    ∧ (executeTaskSync lookupH st t now).st = st
    ∧ (executeTaskSync lookupH st t now).task = t := by
  simp [executeTaskSync, hl]

/-- Concrete task used to instantiate the executor theorems. -/
def noopTask : Task :=
  { id := "t1"
    type := "noop"
    description := "do nothing"
    parameters := []
    status := .pending
    dependencies := []
    createdAt := 0
    updatedAt := 0
    result := none
    error := "" }

def noopHandler : Handler := fun t => (none, t)

def failHandler : Handler := fun t => (some "boom", t)

theorem executeTask_no_handler_witness :
    (executeTaskSync (fun _ => none) execState0 noopTask 3).res
        = .error ("no handler registered for task type: " ++ noopTask.type)
    ∧ (executeTaskSync (fun _ => none) execState0 noopTask 3).st = execState0
    ∧ (executeTaskSync (fun _ => none) execState0 noopTask 3).task = noopTask :=
  executeTask_no_handler (fun _ => none) execState0 noopTask 3 rfl

/-! ### Claim C2 -/

/-- C2: for a task whose handler returns nil, the eventually persisted
snapshot under `task:<id>` has status exactly `completed` (never `failed`
or `cancelled`); for a handler returning an error with message `m`, the
persisted status is `failed` and the stored error message is `m`
verbatim.  `t₂` is the task record as mutated by the handler, which per
the handler contract keeps the task's identifier. -/
theorem task_final_status_matches_handler
    (lookupH : String → Option Handler) (st : ExecState) (t t₂ : Task) (h : Handler)
    (errOpt : Option String) (now₁ now₂ : Nat)
    (hl : lookupH t.type = some h)
    (hres : h (markRunning t now₁) = (errOpt, t₂))
    (hid : t₂.id = t.id) :
    lookupA ("task:" ++ t.id) (execAndComplete lookupH st t now₁ now₂).st.memory
      = some (.task (match errOpt with
          | none =>
            { t₂ with
              status := TaskStatus.completed
              updatedAt := now₂ }
          | some m =>
            { t₂ with
              status := TaskStatus.failed
              error := m
              updatedAt := now₂ })) := by
  cases errOpt with
  | none =>
    simp only [execAndComplete, executeTaskSync, hl, completeTask]
    rw [hres]
    simp [finalizeTask, hid, lookupA_insertA_self, markRunning]
  | some m =>
    simp only [execAndComplete, executeTaskSync, hl, completeTask]
    rw [hres]
    simp [finalizeTask, hid, lookupA_insertA_self, markRunning]

theorem task_final_status_matches_handler_witness :
    lookupA ("task:" ++ noopTask.id)
        (execAndComplete (fun _ => some failHandler) execState0 noopTask 1 2).st.memory
      = some (.task { markRunning noopTask 1 with
          status := TaskStatus.failed
          error := "boom"
          updatedAt := 2 }) :=
  task_final_status_matches_handler (fun _ => some failHandler) execState0 noopTask
    (markRunning noopTask 1) failHandler (some "boom") 1 2 rfl rfl rfl

/-! ### Claim C6 -/

/-- C6: for a successfully dispatched task the observable effects, in
order, are: persist the `running` snapshot, publish `task.started`, the
handler starts, the handler returns, publish the completion event, persist
the completion snapshot.  In particular the `running` snapshot (whose
status field is `running`) is persisted before the handler starts, and
hence before the handler-completion snapshot is written. -/
theorem running_snapshot_before_handler
    (lookupH : String → Option Handler) (st : ExecState) (t t₂ : Task) (h : Handler)
    (errOpt : Option String) (now₁ now₂ : Nat)
    (hl : lookupH t.type = some h)
    (hres : h (markRunning t now₁) = (errOpt, t₂))
    (hid : t₂.id = t.id) :
    (execAndComplete lookupH st t now₁ now₂).st.trace
      = st.trace ++
        [.storeTask ("task:" ++ t.id) (markRunning t now₁),
         .publish "task.started" t.id,
         .handlerStart t.id,
         .handlerReturn t.id,
         .publish (completionTopic errOpt) t.id,
         .storeTask ("task:" ++ t.id) (finalizeTask t₂ errOpt now₂)]
    ∧ (markRunning t now₁).status = .running := by
  cases errOpt with
  | none =>
    refine ⟨?_, rfl⟩
    simp only [execAndComplete, executeTaskSync, hl, completeTask]
    rw [hres]
    simp only [finalizeTask, completionTopic]
    simp [markRunning, hid]
  | some m =>
    refine ⟨?_, rfl⟩
    simp only [execAndComplete, executeTaskSync, hl, completeTask]
    rw [hres]
    simp only [finalizeTask, completionTopic]
    simp [markRunning, hid]

theorem running_snapshot_before_handler_witness :
    (execAndComplete (fun _ => some noopHandler) execState0 noopTask 1 2).st.trace
      = execState0.trace ++
        [.storeTask ("task:" ++ noopTask.id) (markRunning noopTask 1),
         .publish "task.started" noopTask.id,
         .handlerStart noopTask.id,
         .handlerReturn noopTask.id,
         .publish (completionTopic none) noopTask.id,
         .storeTask ("task:" ++ noopTask.id) (finalizeTask (markRunning noopTask 1) none 2)]
    ∧ (markRunning noopTask 1).status = .running :=
  running_snapshot_before_handler (fun _ => some noopHandler) execState0 noopTask
    (markRunning noopTask 1) noopHandler none 1 2 rfl rfl rfl

/-! ### Claim C7 -/

/-- C7: cancelling a task that is not in the in-flight registry fails with
the not-running error and returns the state unchanged: no cancellation
handle is invoked and the persisted snapshot under `task:<id>` (if any) is
untouched. -/
theorem cancelTask_not_running
    (st : ExecState) (taskID : String) (now : Nat)
    (hnr : taskID ∉ st.runningTasks) :
    CancelTask st taskID now = (.error ("task not running: " ++ taskID), st) := by
  simp [CancelTask, hnr]

theorem cancelTask_not_running_witness :
    CancelTask execState0 "t9" 4 = (.error ("task not running: " ++ "t9"), execState0) :=
  cancelTask_not_running execState0 "t9" 4 (by simp [execState0])

/-! ### Claim C10 -/

/-- C10: cancelling a task that is in the in-flight registry but has no
snapshot stored under `task:<id>` first invokes the recorded cancellation
handle and then fails with the retrieval error: the call reports failure
even though the handler's context was already cancelled, while no
`cancelled` snapshot is persisted and no `task.cancelled` notification is
published (the memory and trace components are unchanged; only the record
of invoked handles grows). -/
theorem cancelTask_missing_snapshot
    (st : ExecState) (taskID : String) (now : Nat)
    (hr : taskID ∈ st.runningTasks)
    (hm : lookupA ("task:" ++ taskID) st.memory = none) :
    CancelTask st taskID now
      = (.error ("failed to retrieve task: key not found: task:" ++ taskID),
         { st with cancelledHandles := st.cancelledHandles ++ [taskID] }) := by
  simp [CancelTask, hr, hm]

def inflightState : ExecState :=
  { memory := [], runningTasks := ["t1"], cancelledHandles := [], trace := [] }

theorem cancelTask_missing_snapshot_witness :
    CancelTask inflightState "t1" 5
      = (.error ("failed to retrieve task: key not found: task:" ++ "t1"),
         { inflightState with
             cancelledHandles := inflightState.cancelledHandles ++ ["t1"] }) :=
  cancelTask_missing_snapshot inflightState "t1" 5 (by simp [inflightState]) rfl

/-! ### Event bus (pkg/eventbus/eventbus.go)

Payloads (`interface{}`) are embedded as `String`.  A subscriber is a
buffered channel: a fixed capacity plus the queue of pending
notifications.  The `select` in `Publish` is deterministic except when the
channel has space while the context is already cancelled (two ready
cases); in that single situation Go picks a ready case at random and the
embedding resolves it in favour of delivery.  Every fact proved below only
exercises paths on which the Go `select` is deterministic. -/

structure Subscriber where
  capacity : Nat
  queue : List String
deriving DecidableEq

structure EventBus where
  subscribers : List (String × List Subscriber)
deriving DecidableEq

/-- The delivery loop of `Publish` over the topic's channel list: send
when the buffer has space; otherwise return the context error when the
context is cancelled; otherwise take the `default` branch and skip the
subscriber.  An abort keeps the deliveries already made and leaves the
remaining subscribers untouched. -/
def publishLoop (ctxDone : Bool) (data : String) :
    List Subscriber → Except String Unit × List Subscriber
  | [] => (.ok (), [])
  | s :: rest =>
    if s.queue.length < s.capacity then
      let r := publishLoop ctxDone data rest
      (r.1, { s with queue := s.queue ++ [data] } :: r.2)
    else if ctxDone then
      (.error "context canceled", s :: rest)
    else
      let r := publishLoop ctxDone data rest
      (r.1, s :: r.2)

/-- Publish (eventbus.go lines 26-54): a topic with no subscriber list is
a no-op returning nil; otherwise the payload is offered to every
subscriber in turn. -/
def Publish (bus : EventBus) (ctxDone : Bool) (topic data : String) :
    Except String Unit × EventBus :=
  match lookupA topic bus.subscribers with
  | none => (.ok (), bus)
  | some subs =>
    let r := publishLoop ctxDone data subs
    (r.1, { bus with subscribers := insertA topic r.2 bus.subscribers })

/-- Effect of one non-cancelled publish on one subscriber: enqueue when
the buffer has space, skip when full. -/
def deliverOne (data : String) (s : Subscriber) : Subscriber :=
  if s.queue.length < s.capacity then { s with queue := s.queue ++ [data] } else s

theorem publishLoop_not_done (data : String) (subs : List Subscriber) :
    publishLoop false data subs = (.ok (), subs.map (deliverOne data)) := by
  induction subs with
  | nil => rfl
  | cons s rest ih =>
    by_cases hs : s.queue.length < s.capacity <;>
      simp [publishLoop, deliverOne, hs, ih]

/-! ### Claim C8 -/

def fullSub : Subscriber := { capacity := 1, queue := ["old"] }

def emptySub : Subscriber := { capacity := 10, queue := [] }

def cexBus : EventBus := { subscribers := [("t", [fullSub, emptySub])] }

/-- C8 counterexample: with the publishing context already cancelled and
the first subscriber's buffer full, `Publish` returns the context error at
that subscriber and the second subscriber — whose buffer has space — never
receives the payload, contradicting the claim that on every publish each
full subscriber is merely skipped while every subscriber with buffer space
still receives the payload. -/
theorem publish_full_buffer_counterexample :
    (Publish cexBus true "t" "m").1 = .error "context canceled"
    ∧ lookupA "t" (Publish cexBus true "t" "m").2.subscribers
        = some [fullSub, emptySub]
    ∧ emptySub.queue.length < emptySub.capacity
    ∧ emptySub.queue = [] :=
  ⟨rfl, rfl, by decide, rfl⟩

/-- C8 (amended): publishing to a topic with no subscribers returns
without error and changes no state, for any context; and on every publish
whose context is not cancelled, the payload is delivered to exactly those
subscribers of the topic whose buffer has space (appended to their queue)
while the full ones are skipped, and the call returns without error.
Nothing is claimed about delivery under a cancelled context: there the
`select` is racy when a buffer has space, and the counterexample above
shows the unrestricted claim fails on the deterministic full-buffer
path. -/
theorem publish_best_effort
    (bus : EventBus) (topic topic₀ data : String) (d : Bool) (subs : List Subscriber)
    (hs : lookupA topic bus.subscribers = some subs)
    (h₀ : lookupA topic₀ bus.subscribers = none) :
    Publish bus d topic₀ data = (.ok (), bus)
    ∧ Publish bus false topic data
        = (.ok (), { bus with
            subscribers := insertA topic (subs.map (deliverOne data))
              bus.subscribers }) := by
  constructor
  · simp [Publish, h₀]
  · simp [Publish, hs, publishLoop_not_done]

theorem publish_best_effort_witness :
    Publish cexBus false "zero" "m" = (.ok (), cexBus)
    ∧ Publish cexBus false "t" "m"
        = (.ok (), { cexBus with
            subscribers := insertA "t" ([fullSub, emptySub].map (deliverOne "m"))
              cexBus.subscribers }) :=
  publish_best_effort cexBus "t" "zero" "m" false [fullSub, emptySub] rfl rfl

/-! ### Claim C5: GetWorkflow and aliasing

In the source, `e.workflows` is `map[string]*WorkflowState`, and the
States slice, Transitions map and Data map inside a `WorkflowState` are
themselves reference types.  GetWorkflow (engine.go lines 219-232) returns
`&workflowCopy` where `workflowCopy := *workflow` — a copy of the record,
not of the collections it references.  To make the resulting sharing
observable, the engine is re-embedded here with an explicit heap: workflow
records live at numeric addresses and hold the addresses of their nested
collections. -/

structure WSRecord where
  id : String
  currentState : String
  statesRef : Nat
  transRef : Nat
  dataRef : Nat
  createdAt : Nat
  updatedAt : Nat
deriving DecidableEq

structure HeapEngine where
  wsHeap : List (Nat × WSRecord)
  statesHeap : List (Nat × List String)
  transHeap : List (Nat × List (String × List (String × String)))
  dataHeap : List (Nat × List (String × String))
  workflows : List (String × Nat)
  fresh : Nat
deriving DecidableEq

def heapEngine0 : HeapEngine :=
  { wsHeap := []
    statesHeap := []
    transHeap := []
    dataHeap := []
    workflows := []
    fresh := 0 }

/-- CreateWorkflow in the heap model: allocate the three nested
collections and the record referencing them, then register the record's
address under the workflow id. -/
def createWorkflowH (h : HeapEngine) (workflowID : String) (states : List String)
    (now : Nat) : Except String HeapEngine :=
  match states with
  | [] => .error "workflow must have at least one state"
  | s0 :: _ =>
    let r : WSRecord :=
      { id := workflowID
        currentState := s0
        statesRef := h.fresh
        transRef := h.fresh + 1
        dataRef := h.fresh + 2
        createdAt := now
        updatedAt := now }
    .ok { h with
      statesHeap := insertA h.fresh states h.statesHeap
      transHeap := insertA (h.fresh + 1) (initTransitions states) h.transHeap
      dataHeap := insertA (h.fresh + 2) [] h.dataHeap
      wsHeap := insertA (h.fresh + 3) r h.wsHeap
      workflows := insertA workflowID (h.fresh + 3) h.workflows
      fresh := h.fresh + 4 }

/-- GetWorkflow in the heap model: the returned value is `&workflowCopy`
with `workflowCopy := *workflow` — a fresh record cell holding the same
field values, in particular the same nested references.  Returns the
address of the copy.  (The inner not-found branch is unreachable: the
engine never registers a dangling record address.) -/
def getWorkflowH (h : HeapEngine) (workflowID : String) :
    Except String (Nat × HeapEngine) :=
  match lookupA workflowID h.workflows with
  | none => .error ("workflow not found: " ++ workflowID)
  | some a =>
    match lookupA a h.wsHeap with
    | none => .error ("workflow not found: " ++ workflowID)
    | some r =>
      .ok (h.fresh,
        { h with
          wsHeap := insertA h.fresh r h.wsHeap
          fresh := h.fresh + 1 })

/-- Caller-side mutation `ws.Transitions[fr][event] = tgt` performed
through the record at address `a` (such as the value GetWorkflow
returned): a write into the transitions cell that record references. -/
def writeTransVia (h : HeapEngine) (a : Nat) (fr event tgt : String) : HeapEngine :=
  match lookupA a h.wsHeap with
  | none => h
  | some r =>
    match lookupA r.transRef h.transHeap with
    | none => h
    | some tbl =>
      { h with
        transHeap := insertA r.transRef
          (insertA fr (insertA event tgt ((lookupA fr tbl).getD [])) tbl)
          h.transHeap }

/-- Caller-side reassignment `ws.CurrentState = s` of a scalar field of
the record at address `a`: mutates that record cell only. -/
def setCurrentStateVia (h : HeapEngine) (a : Nat) (s : String) : HeapEngine :=
  match lookupA a h.wsHeap with
  | none => h
  | some r =>
    { h with wsHeap := insertA a { r with currentState := s } h.wsHeap }

/-- The engine's internal view of a workflow's transition table: follow
the registered record address, then its transitions reference. -/
def internalTransView (h : HeapEngine) (workflowID : String) :
    Option (List (String × List (String × String))) :=
  match lookupA workflowID h.workflows with
  | none => none
  | some a =>
    match lookupA a h.wsHeap with
    | none => none
    | some r => lookupA r.transRef h.transHeap

/-- The engine's internal view of a workflow's current state. -/
def internalCurrentState (h : HeapEngine) (workflowID : String) : Option String :=
  match lookupA workflowID h.workflows with
  | none => none
  | some a =>
    match lookupA a h.wsHeap with
    | none => none
    | some r => some r.currentState

def c5Setup : HeapEngine :=
  match createWorkflowH heapEngine0 "wf" ["a", "b"] 0 with
  | .ok h => h
  | .error _ => heapEngine0

/-- Copy address and heap returned by GetWorkflow on `c5Setup`. -/
def c5Copy : Nat × HeapEngine :=
  match getWorkflowH c5Setup "wf" with
  | .ok p => p
  | .error _ => (0, c5Setup)

/-- C5 counterexample: after GetWorkflow, a caller mutation of the
transition table performed through the returned copy changes the engine's
internal workflow state, so the returned value is not a defensive copy as
claimed. -/
theorem getWorkflow_not_defensive :
    internalTransView (writeTransVia c5Copy.2 c5Copy.1 "a" "go" "b") "wf"
        ≠ internalTransView c5Copy.2 "wf"
    ∧ internalTransView c5Copy.2 "wf" = some (initTransitions ["a", "b"])
    ∧ internalTransView (writeTransVia c5Copy.2 c5Copy.1 "a" "go" "b") "wf"
        = some [("a", [("go", "b")]), ("b", [])] := by
  decide

/-- C5 (amended): GetWorkflow returns a shallow copy: a fresh record cell
holding the same field values as the internal record, so reassigning a
scalar field of the copy (such as the current state) leaves the engine's
internal state untouched, while the copy shares the nested references, so
a caller mutation through the copy's transition table is applied to the
engine's internal transition table. -/
theorem getWorkflow_shallow_copy
    (h : HeapEngine) (workflowID s fr event tgt : String) (a : Nat) (r : WSRecord)
    (hw : lookupA workflowID h.workflows = some a)
    (hr : lookupA a h.wsHeap = some r)
    (hfresh : h.fresh ≠ a) :
    ∃ h', getWorkflowH h workflowID = .ok (h.fresh, h')
      ∧ lookupA h.fresh h'.wsHeap = some r
      ∧ lookupA a h'.wsHeap = some r
      ∧ internalCurrentState (setCurrentStateVia h' h.fresh s) workflowID
          = internalCurrentState h' workflowID
      ∧ internalTransView (writeTransVia h' h.fresh fr event tgt) workflowID
          = (internalTransView h' workflowID).map
              (fun tbl => insertA fr (insertA event tgt ((lookupA fr tbl).getD [])) tbl)
    := by
  have hne : a ≠ h.fresh := fun hx => hfresh hx.symm
  have hself : lookupA h.fresh (insertA h.fresh r h.wsHeap) = some r :=
    lookupA_insertA_self h.fresh r h.wsHeap
  have hkeep : lookupA a (insertA h.fresh r h.wsHeap) = some r :=
    (lookupA_insertA_ne r h.wsHeap hne).trans hr
  refine ⟨{ h with
      wsHeap := insertA h.fresh r h.wsHeap
      fresh := h.fresh + 1 }, ?_, hself, hkeep, ?_, ?_⟩
  · simp [getWorkflowH, hw, hr]
  · simp only [setCurrentStateVia, hself]
    simp only [internalCurrentState, hw]
    rw [show lookupA a (insertA h.fresh { r with currentState := s }
          (insertA h.fresh r h.wsHeap)) = some r from
        (lookupA_insertA_ne _ _ hne).trans hkeep, hkeep]
  · simp only [writeTransVia, hself]
    cases htbl : lookupA r.transRef h.transHeap with
    | none =>
      simp only [internalTransView, hw, hkeep, htbl]
      rfl
    | some tbl =>
      simp only [internalTransView, hw, hkeep, htbl]
      rw [lookupA_insertA_self]
      rfl

def c5Rec : WSRecord :=
  { id := "wf"
    currentState := "a"
    statesRef := 0
    transRef := 1
    dataRef := 2
    createdAt := 0
    updatedAt := 0 }

theorem getWorkflow_shallow_copy_witness :
    ∃ h', getWorkflowH c5Setup "wf" = .ok (c5Setup.fresh, h')
      ∧ lookupA c5Setup.fresh h'.wsHeap = some c5Rec
      ∧ lookupA 3 h'.wsHeap = some c5Rec
      ∧ internalCurrentState (setCurrentStateVia h' c5Setup.fresh "zzz") "wf"
          = internalCurrentState h' "wf"
      ∧ internalTransView (writeTransVia h' c5Setup.fresh "a" "go" "b") "wf"
          = (internalTransView h' "wf").map
              (fun tbl => insertA "a" (insertA "go" "b" ((lookupA "a" tbl).getD [])) tbl)
    :=
  getWorkflow_shallow_copy c5Setup "wf" "zzz" "a" "go" "b" 3 c5Rec rfl rfl (by decide)

end Buddy
